import Mathlib

/-!
# Verification of the lemmy federation excerpt

Shallow embedding of two source files:

* `crates/db_schema/src/impls/actor_language.rs` — per-actor language
  configuration (`LocalUserLanguage`, `SiteLanguage`, `CommunityLanguage`
  and the helper `update_languages`).  The Postgres tables are modelled as
  lists of rows inside an explicit `DbState`; diesel `filter`/`delete`/
  `insert_into` become list operations that preserve row order, and each
  Rust method becomes a pure Lean function on `DbState`.

* `crates/apub_lib/examples/federation/instance.rs` — the federation
  example instance: construction (`Instance::new`), the HTTP routes set up
  by `Instance::listen` (a `GET /objects/{user_name}` handler and a
  digest-guarded `POST /u/{user_name}/inbox` handler), and the handlers
  `get_user` / `post_inbox`.  Library pieces the example calls
  (`lemmy_apub_lib`: `ObjectId` resolution, `receive_activity`, the
  `ApubObject` wire codec, `WithContext`, the `VerifyDigest` middleware)
  are not part of the excerpt; they are modelled from the specification
  and marked `Modelled from the spec:` in their doc comments.  Effects are
  made explicit: storage is threaded as a `Storage` value and network I/O
  is recorded as the list of URLs fetched.
-/

namespace Lemmy

set_option maxRecDepth 100000

deriving instance DecidableEq for Except

/-! ## Database model for `actor_language.rs`

The diesel newtypes from `crates/db_schema/src/newtypes.rs`. -/

structure LanguageId where
  id : Int
deriving DecidableEq, Repr

structure LocalUserId where
  id : Int
deriving DecidableEq, Repr

structure SiteId where
  id : Int
deriving DecidableEq, Repr

structure CommunityId where
  id : Int
deriving DecidableEq, Repr

/-- A row of the `community` table, restricted to the columns
`limit_languages` consults.  `isLocal` embeds the Rust column `local`
(`local` is a Lean keyword). -/
structure Community where
  id : CommunityId
  isLocal : Bool
deriving DecidableEq, Repr

/-- The database state visible to `actor_language.rs`: the `language`
table (as the list of language ids `Language::read_all` returns), the
three join tables, and the `community` table.  Rows are kept in insertion
order; diesel `filter` keeps relative order, matching `List.filter`. -/
structure DbState where
  languages : List LanguageId
  local_user_language : List (LocalUserId × LanguageId)
  site_language : List (SiteId × LanguageId)
  community_language : List (CommunityId × LanguageId)
  communities : List Community
deriving DecidableEq, Repr

/-- `Language::read_all(conn)`: all language ids, mapped from the rows of
the `language` table. -/
def Language.read_all (st : DbState) : List LanguageId :=
  st.languages

/-- `update_languages(conn, language_ids)`: if no language is given, set
all languages (`Language::read_all`), otherwise return the given list. -/
def update_languages (st : DbState) (language_ids : List LanguageId) :
    List LanguageId :=
  if language_ids.isEmpty then Language.read_all st else language_ids

namespace LocalUserLanguage

/-- `LocalUserLanguage::read`: rows of `local_user_language` filtered on
`local_user_id`, projected to `language_id`. -/
def read (st : DbState) (for_local_user_id : LocalUserId) : List LanguageId :=
  (st.local_user_language.filter (fun r => r.1 == for_local_user_id)).map
    (fun r => r.2)

/-- `LocalUserLanguage::update`: inside one transaction, delete the user's
current rows, compute `update_languages`, and insert one row per id. -/
def update (st : DbState) (language_ids : List LanguageId)
    (for_local_user_id : LocalUserId) : DbState :=
  let st1 :=
    { st with
      local_user_language :=
        st.local_user_language.filter (fun r => !(r.1 == for_local_user_id)) }
  let lang_ids := update_languages st1 language_ids
  { st1 with
    local_user_language :=
      st1.local_user_language ++ lang_ids.map (fun l => (for_local_user_id, l)) }

end LocalUserLanguage

namespace CommunityLanguage

/-- `CommunityLanguage::read`: rows of `community_language` filtered on
`community_id`, projected to `language_id`. -/
def read (st : DbState) (for_community_id : CommunityId) : List LanguageId :=
  (st.community_language.filter (fun r => r.1 == for_community_id)).map
    (fun r => r.2)

/-- The `for c in local_communities` loop of
`CommunityLanguage::limit_languages`: for each community in turn, delete
its `community_language` rows whose `language_id` is not among
`site_language_ids` (diesel `ne_all`). -/
def limitLoop (site_language_ids : List LanguageId) (cs : List Community)
    (rows : List (CommunityId × LanguageId)) :
    List (CommunityId × LanguageId) :=
  match cs with
  | [] => rows
  | c :: rest =>
      limitLoop site_language_ids rest
        (rows.filter (fun r => !(r.1 == c.id && !(site_language_ids.contains r.2))))

/-- `CommunityLanguage::limit_languages`: load the communities with
`local == true`, then run the deletion loop over them. -/
def limit_languages (st : DbState) (site_language_ids : List LanguageId) :
    DbState :=
  let local_communities := st.communities.filter (fun c => c.isLocal)
  { st with
    community_language :=
      limitLoop site_language_ids local_communities st.community_language }

/-- `CommunityLanguage::update`: delete the community's current rows,
compute `update_languages`, insert one row per id. -/
def update (st : DbState) (language_ids : List LanguageId)
    (for_community_id : CommunityId) : DbState :=
  let st1 :=
    { st with
      community_language :=
        st.community_language.filter (fun r => !(r.1 == for_community_id)) }
  let lang_ids := update_languages st1 language_ids
  { st1 with
    community_language :=
      st1.community_language ++ lang_ids.map (fun l => (for_community_id, l)) }

end CommunityLanguage

namespace SiteLanguage

/-- `SiteLanguage::read`: rows of `site_language` filtered on `site_id`,
projected to `language_id`. -/
def read (st : DbState) (for_site_id : SiteId) : List LanguageId :=
  (st.site_language.filter (fun r => r.1 == for_site_id)).map (fun r => r.2)

/-- `SiteLanguage::update`: delete the site's current rows, compute
`update_languages`, insert one row per id, then call
`CommunityLanguage::limit_languages` with the new id list. -/
def update (st : DbState) (language_ids : List LanguageId)
    (for_site_id : SiteId) : DbState :=
  let st1 :=
    { st with
      site_language :=
        st.site_language.filter (fun r => !(r.1 == for_site_id)) }
  let lang_ids := update_languages st1 language_ids
  let st2 :=
    { st1 with
      site_language :=
        st1.site_language ++ lang_ids.map (fun l => (for_site_id, l)) }
  CommunityLanguage.limit_languages st2 lang_ids

end SiteLanguage

/-! ## Federation example (`examples/federation/instance.rs`)

Strings are processed through their underlying character lists with
structurally recursive helpers, so every definition evaluates by kernel
reduction. -/

/-- Split a character list at every occurrence of `sep` (the list-level
counterpart of `str::split`). -/
def splitOnChar (sep : Char) : List Char → List (List Char)
  | [] => [[]]
  | c :: rest =>
      let r := splitOnChar sep rest
      if c == sep then [] :: r
      else
        match r with
        | [] => [[c]]
        | h :: t => (c :: h) :: t

/-- An absolute URL as the resolver sees it: scheme, authority, path. -/
structure Url where
  scheme : String
  authority : String
  path : String
deriving DecidableEq, Repr

/-- Render the URL back to its string form. -/
def Url.toStr (u : Url) : String :=
  u.scheme ++ "://" ++ u.authority ++ u.path

/-- `Url::parse`: accept `scheme://authority/path` with a non-empty scheme
and authority, reject anything else (the `?` on `Url::parse` in
`get_user`).  Modelled from the spec: the `url` crate parser, restricted
to the shape the example exercises. -/
def Url.parse (s : String) : Option Url :=
  match splitOnChar ':' s.data with
  | [schemeCs, rest] =>
      match rest with
      | '/' :: '/' :: hostPath =>
          let auth := hostPath.takeWhile (fun c => !(c == '/'))
          let path := hostPath.dropWhile (fun c => !(c == '/'))
          if schemeCs.isEmpty || auth.isEmpty then none
          else some ⟨⟨schemeCs⟩, ⟨auth⟩, ⟨path⟩⟩
      | _ => none
  | _ => none

/-- The example's user entity.  Modelled from the spec (a Resolved
Entity/actor); `isLocal` embeds the Rust field `local` that
`Instance::get_user` filters on (`local` is a Lean keyword). -/
structure MyUser where
  apub_id : String
  username : String
  public_key : String
  isLocal : Bool
deriving DecidableEq, Repr

/-- The example's post entity, as produced by the `Create` handler. -/
structure MyPost where
  apub_id : String
  creator : String
deriving DecidableEq, Repr

/-- The wire document for a person.  Modelled from the spec: the
JSON-LD document; `Option` marks field presence, `kind` carries the JSON
`type` tag. -/
structure PersonWire where
  id : Option String
  kind : Option String
  preferredUsername : Option String
  publicKey : Option String
deriving DecidableEq, Repr

/-- Modelled from the spec: `ApubObject::into_apub` (`to_wire`) for
`MyUser` — deterministic serialization emitting every required field. -/
def MyUser.into_apub (u : MyUser) (_ctx : Unit) : PersonWire :=
  ⟨some u.apub_id, some "Person", some u.username, some u.public_key⟩

/-- Errors of the embedded pipeline; covers the spec's
`ResolutionError`, `VerificationError` and `ConversionError` cases the
way the example's single `LemmyError` does. -/
inductive LemmyError
  | urlParseError
  | notFound
  | notLocal
  | fetchFailed
  | invalidKind
  | missingDigest
  | digestMismatch
  | missingSignature
  | badSignature
  | unknownKey
  | parseError
  | actorUnresolvable
deriving DecidableEq, Repr

/-- Modelled from the spec: `ApubObject::from_apub` (`from_wire`) for
`MyUser` — validates that required fields are present and the declared
type matches the expected kind; performs no network I/O; a converted
remote document yields a non-local entity. -/
def MyUser.from_apub (doc : PersonWire) (_ctx : Unit) :
    Except LemmyError MyUser :=
  match doc.id, doc.kind, doc.preferredUsername, doc.publicKey with
  | some i, some k, some n, some pk =>
      if k == "Person" then Except.ok ⟨i, n, pk, false⟩
      else Except.error LemmyError.invalidKind
  | _, _, _, _ => Except.error LemmyError.invalidKind

/-- Modelled from the spec: the shared HTTP client handle
(`reqwest::Client`); only its identity matters to this embedding. -/
structure Client where
  user_agent : String
deriving DecidableEq, Repr

/-- `Client::default()`. -/
def Client.default : Client := ⟨"lemmy-example"⟩

/-- Modelled from the spec: `InstanceSettings` — request timeout,
allowed/blocked remote domains, worker concurrency limit. -/
structure InstanceSettings where
  request_timeout : Nat
  allowed_domains : List String
  blocked_domains : List String
  worker_count : Nat
deriving DecidableEq, Repr

/-- `InstanceSettings::default()`: library defaults. -/
def InstanceSettings.default : InstanceSettings := ⟨10, [], [], 64⟩

/-- The process-wide federation context (`LocalInstance`):
hostname/domain identity, HTTP client, settings. -/
structure LocalInstance where
  hostname : String
  client : Client
  settings : InstanceSettings
deriving DecidableEq, Repr

/-- `LocalInstance::new(hostname, client, settings)`: plain construction,
no failure case. -/
def LocalInstance.new (hostname : String) (client : Client)
    (settings : InstanceSettings) : LocalInstance :=
  ⟨hostname, client, settings⟩

/-- The example's `Instance` struct: shared `LocalInstance` plus its
in-memory storage of users and posts. -/
structure Instance where
  local_instance : LocalInstance
  users : List MyUser
  posts : List MyPost
deriving DecidableEq, Repr

/-- `Instance::new(hostname)`: builds the `LocalInstance` from the
hostname, a default client and default settings; starts with no users
and no posts.  Total — the Rust signature returns `Instance`, not
`Result`. -/
def Instance.new (hostname : String) : Instance :=
  { local_instance :=
      LocalInstance.new hostname Client.default InstanceSettings.default
    users := []
    posts := [] }

/-- `Instance::get_user`: `self.users.iter().find(|u| u.local).unwrap()`.
The `find` is embedded as `List.find?`; a `none` result is exactly the
case where the Rust `unwrap` panics. -/
def Instance.get_user (i : Instance) : Option MyUser :=
  i.users.find? (fun u => u.isLocal)

/-- `Instance::get_all_posts`. -/
def Instance.get_all_posts (i : Instance) : List MyPost :=
  i.posts

/-- `Instance::get_local_instance`. -/
def Instance.get_local_instance (i : Instance) : LocalInstance :=
  i.local_instance

/-! ### Storage collaborator and resolver -/

/-- Modelled from the spec: the storage collaborator's state — persisted
users and posts, the resolution cache keyed by URL, and the
processed-ids record used for deduplication. -/
structure Storage where
  users : List MyUser
  posts : List MyPost
  cache : List (String × MyUser)
  processed : List String
deriving DecidableEq, Repr

/-- Modelled from the spec: `find_by_url(url) -> Option<Entity>`. -/
def find_by_url (st : Storage) (url : String) : Option MyUser :=
  st.users.find? (fun u => u.apub_id == url)

/-- Modelled from the spec: idempotent `upsert(entity)` keyed by the
entity's canonical id — replaces any existing entity with that id,
inserts otherwise. -/
def upsert (st : Storage) (u : MyUser) : Storage :=
  { st with
    users := u :: st.users.filter (fun v => !(v.apub_id == u.apub_id)) }

/-- Modelled from the spec: populate the resolution cache under the
resolved URL (bounded-policy details elided; only the keyed upsert
matters here). -/
def cache_put (st : Storage) (key : String) (u : MyUser) : Storage :=
  { st with cache := (key, u) :: st.cache.filter (fun p => !(p.1 == key)) }

/-- Modelled from the spec: `mark_processed(activity_id)` — atomic
check-and-insert on the processed-ids record; returns `false` if the id
was already processed. -/
def mark_processed (st : Storage) (activity_id : String) : Bool × Storage :=
  if st.processed.contains activity_id then (false, st)
  else (true, { st with processed := st.processed ++ [activity_id] })

/-- A typed reference to a person (`ObjectId<MyUser>`). -/
structure ObjectId where
  url : Url
deriving DecidableEq, Repr

/-- `ObjectId::new(url)`. -/
def ObjectId.new (url : Url) : ObjectId := ⟨url⟩

/-- The remote network, as a pure lookup from URL to the wire document a
`GET` would return (`none` is a transport failure or non-2xx). -/
abbrev Net := Url → Option PersonWire

/-- Modelled from the spec: `ObjectId` resolution.  Local authority:
storage lookup, never any network I/O.  Remote: cache hit without
network, else an authenticated GET (recorded in the returned URL trace),
kind validation through the codec, idempotent upsert, cache population. -/
def ObjectId.dereference (oid : ObjectId) (inst : LocalInstance)
    (st : Storage) (net : Net) :
    Except LemmyError MyUser × Storage × List Url :=
  if oid.url.authority == inst.hostname then
    match find_by_url st oid.url.toStr with
    | some u => (Except.ok u, st, [])
    | none => (Except.error LemmyError.notFound, st, [])
  else
    match st.cache.find? (fun p => p.1 == oid.url.toStr) with
    | some p => (Except.ok p.2, st, [])
    | none =>
        match net oid.url with
        | none => (Except.error LemmyError.fetchFailed, st, [oid.url])
        | some doc =>
            match MyUser.from_apub doc () with
            | Except.error e => (Except.error e, st, [oid.url])
            | Except.ok entity =>
                let st1 := upsert st entity
                let st2 := cache_put st1 oid.url.toStr entity
                (Except.ok entity, st2, [oid.url])

/-- Modelled from the spec: the local-only resolution variant used by the
`GET /objects` handler — storage lookup when the authority is local,
failure (never a network request; it takes no network at all) when the
reference is remote. -/
def ObjectId.dereference_local (oid : ObjectId) (inst : LocalInstance)
    (st : Storage) : Except LemmyError MyUser :=
  if oid.url.authority == inst.hostname then
    match find_by_url st oid.url.toStr with
    | some u => Except.ok u
    | none => Except.error LemmyError.notFound
  else Except.error LemmyError.notLocal

/-! ### HTTP layer of the example -/

/-- `APUB_JSON_CONTENT_TYPE` from `lemmy_apub_lib`. -/
def APUB_JSON_CONTENT_TYPE : String := "application/activity+json"

/-- The shared JSON-LD context used by `WithContext::new_default`. -/
def default_context : String := "https://www.w3.org/ns/activitystreams"

/-- `WithContext<T>`: a payload wrapped with the shared JSON-LD
`@context`. -/
structure WithContext (α : Type) where
  context : String
  inner : α
deriving DecidableEq, Repr

/-- `WithContext::new_default(data)`. -/
def WithContext.new_default {α : Type} (inner : α) : WithContext α :=
  ⟨default_context, inner⟩

/-- An HTTP response with a typed body. -/
structure HttpResponse (α : Type) where
  status : Nat
  content_type : String
  body : α
deriving DecidableEq, Repr

/-- The `get_user` handler for `GET /objects/{user_name}`: parse the
request URI, resolve it locally (`dereference_local`), serialize through
the codec, and answer `200` with the `APUB_JSON_CONTENT_TYPE` content
type and the document wrapped by `WithContext::new_default`.  Each
`match` arm mirrors a `?` in the Rust body. -/
def get_user (request_uri : String) (inst : LocalInstance) (st : Storage) :
    Except LemmyError (HttpResponse (WithContext PersonWire)) :=
  match Url.parse request_uri with
  | none => Except.error LemmyError.urlParseError
  | some url =>
      match ObjectId.dereference_local (ObjectId.new url) inst st with
      | Except.error e => Except.error e
      | Except.ok user =>
          Except.ok
            { status := 200
              content_type := APUB_JSON_CONTENT_TYPE
              body := WithContext.new_default (user.into_apub ()) }

/-! ### Inbox pipeline -/

/-- The closed set of activity kinds the example accepts
(`PersonAcceptedActivities`), with the unknown fallback variant. -/
inductive ActivityKind
  | create
  | follow
  | accept
  | unknownKind
deriving DecidableEq, Repr

/-- The wire envelope: globally unique `id` (the deduplication key), the
`actor` reference, the activity kind tag, and its object payload. -/
structure Envelope where
  id : String
  actor : String
  kind : ActivityKind
  object : String
deriving DecidableEq, Repr

/-- An inbound HTTP request.  `digest` and `signature` are the two
required headers; `sig_valid` is the outcome of the cryptographic check
of the signature over the canonicalized request (the arithmetic of the
signature scheme itself is out of scope of this embedding). -/
structure Request where
  method : String
  path : String
  digest : Option Nat
  signature : Option String
  sig_valid : Bool
  body : String
deriving DecidableEq, Repr

/-- Modelled from the spec: the SHA-256 body digest computed by the
`VerifyDigest(Sha256)` middleware.  Stands in for SHA-256: a
deterministic digest of the body; only its comparison against the
`Digest` header matters to the claims. -/
def body_digest (body : String) : Nat :=
  body.data.foldl (fun h c => (h * 31 + c.toNat) % (2 ^ 64)) 7

/-- Modelled from the spec: `serde_json::from_str` deserialization of the
activity envelope in `post_inbox`, abstracted to the concrete format
`kind|id|actor|object`; `none` is the serde error (malformed document). -/
def parse_activity (payload : String) : Option Envelope :=
  match splitOnChar '|' payload.data with
  | [k, i, a, o] =>
      if i.isEmpty || a.isEmpty then none
      else
        let kind :=
          if (⟨k⟩ : String) == "Create" then ActivityKind.create
          else if (⟨k⟩ : String) == "Follow" then ActivityKind.follow
          else if (⟨k⟩ : String) == "Accept" then ActivityKind.accept
          else ActivityKind.unknownKind
        some ⟨⟨i⟩, ⟨a⟩, kind, ⟨o⟩⟩
  | _ => none

/-- Modelled from the spec: the Signature Verifier of the inbox
pipeline — extract the signature header's key id, resolve the signing
actor via the Object Resolver (remote keys are fetched like any object),
then check the cryptographic signature.  The body digest is checked
separately by the `VerifyDigest` middleware wrap, as in
`Instance::listen`. -/
def verify (req : Request) (inst : LocalInstance) (st : Storage)
    (net : Net) : Except LemmyError MyUser × Storage × List Url :=
  match req.signature with
  | none => (Except.error LemmyError.missingSignature, st, [])
  | some key_id =>
      match Url.parse key_id with
      | none => (Except.error LemmyError.unknownKey, st, [])
      | some kurl =>
          match ObjectId.dereference (ObjectId.new kurl) inst st net with
          | (Except.error _, st1, tr) =>
              (Except.error LemmyError.unknownKey, st1, tr)
          | (Except.ok actor, st1, tr) =>
              if req.sig_valid then (Except.ok actor, st1, tr)
              else (Except.error LemmyError.badSignature, st1, tr)

/-- Modelled from the spec: the Activity Dispatcher — per-kind handlers.
`Create` persists one new post by the verified actor; `Follow` and
`Accept` have no storage effect in this excerpt; unknown kinds are
accepted and dropped silently. -/
def activity_handler (env : Envelope) (actor : MyUser) (st : Storage) :
    Storage :=
  match env.kind with
  | ActivityKind.create =>
      { st with posts := st.posts ++ [⟨env.object, actor.apub_id⟩] }
  | ActivityKind.follow => st
  | ActivityKind.accept => st
  | ActivityKind.unknownKind => st

/-- Modelled from the spec: `receive_activity` — the inbox pipeline
`Received → Verified → Deduplicated → Dispatched → Applied`: verify the
signature (resolving the signing key), check-and-insert the envelope id
(`mark_processed`; an already-processed id terminates successfully as a
no-op), resolve the actor, dispatch to the handler. -/
def receive_activity (req : Request) (env : Envelope)
    (inst : LocalInstance) (st : Storage) (net : Net) :
    Except LemmyError Nat × Storage × List Url :=
  match verify req inst st net with
  | (Except.error e, st1, tr) => (Except.error e, st1, tr)
  | (Except.ok _key_actor, st1, tr1) =>
      match mark_processed st1 env.id with
      | (false, st2) => (Except.ok 200, st2, tr1)
      | (true, st2) =>
          match Url.parse env.actor with
          | none => (Except.error LemmyError.actorUnresolvable, st2, tr1)
          | some aurl =>
              match ObjectId.dereference (ObjectId.new aurl) inst st2 net with
              | (Except.error _, st3, tr2) =>
                  (Except.error LemmyError.actorUnresolvable, st3, tr1 ++ tr2)
              | (Except.ok actor, st3, tr2) =>
                  (Except.ok 200, activity_handler env actor st3, tr1 ++ tr2)

/-- The `post_inbox` handler: deserialize the payload (the
`serde_json::from_str(&payload)?`), then hand the envelope to
`receive_activity`.  A parse failure returns the error before any
pipeline stage runs. -/
def post_inbox (req : Request) (inst : LocalInstance) (st : Storage)
    (net : Net) : Except LemmyError Nat × Storage × List Url :=
  match parse_activity req.body with
  | none => (Except.error LemmyError.parseError, st, [])
  | some env => receive_activity req env inst st net

/-- Modelled from the spec: the `VerifyDigest::new(Sha256::new())`
middleware wrap from `Instance::listen` — recompute the body digest and
compare it against the `Digest` header; only on equality does the
wrapped handler run. -/
def verify_digest
    (handler : Request → Storage → Except LemmyError Nat × Storage × List Url)
    (req : Request) (st : Storage) :
    Except LemmyError Nat × Storage × List Url :=
  match req.digest with
  | none => (Except.error LemmyError.missingDigest, st, [])
  | some d =>
      if d == body_digest req.body then handler req st
      else (Except.error LemmyError.digestMismatch, st, [])

/-- The composed inbox route from `Instance::listen`:
`web::scope("").wrap(VerifyDigest::new(Sha256::new()))` around
`post_inbox`. -/
def inbox_route (req : Request) (inst : LocalInstance) (st : Storage)
    (net : Net) : Except LemmyError Nat × Storage × List Url :=
  verify_digest (fun r s => post_inbox r inst s net) req st

/-- The route table registered by `Instance::listen`. -/
def listen_routes : List (String × String) :=
  [("GET", "/objects/{user_name}"), ("POST", "/u/{user_name}/inbox")]

/-- A reference is resolvable against storage alone: a local reference
has its entity in storage, a remote one sits in the resolution cache.
`ObjectId.dereference` answers such references without touching the
network or mutating storage. -/
def resolvable (oid : ObjectId) (inst : LocalInstance) (st : Storage) :
    Prop :=
  if oid.url.authority == inst.hostname then
    (find_by_url st oid.url.toStr).isSome = true
  else (st.cache.find? (fun p => p.1 == oid.url.toStr)).isSome = true

/-! ### Helper lemmas on keyed row lists -/

theorem filter_key_of_filter_ne {κ β : Type} [DecidableEq κ]
    (rows : List (κ × β)) (k : κ) :
    (rows.filter (fun r => !(r.1 == k))).filter (fun r => r.1 == k) = [] := by
  rw [List.filter_filter]
  simp

theorem read_replace {κ : Type} [DecidableEq κ]
    (rows : List (κ × LanguageId)) (k : κ) (L : List LanguageId) :
    (((rows.filter (fun r => !(r.1 == k))) ++ L.map (fun l => (k, l))).filter
        (fun r => r.1 == k)).map (fun r => r.2) = L := by
  rw [List.filter_append, filter_key_of_filter_ne]
  simp [List.filter_map, Function.comp]

/-- Membership after the `limit_languages` deletion loop: a surviving row
was present before, and for every community the loop visited, the row is
not one the loop would delete. -/
theorem mem_limitLoop {sl : List LanguageId} {cs : List Community}
    {rows : List (CommunityId × LanguageId)} {r : CommunityId × LanguageId}
    (h : r ∈ CommunityLanguage.limitLoop sl cs rows) :
    r ∈ rows ∧ ∀ c ∈ cs, (r.1 == c.id && !(sl.contains r.2)) = false := by
  induction cs generalizing rows with
  | nil => exact ⟨h, by simp⟩
  | cons c rest ih =>
      simp only [CommunityLanguage.limitLoop] at h
      obtain ⟨hr, hall⟩ := ih h
      rw [List.mem_filter] at hr
      refine ⟨hr.1, ?_⟩
      intro c' hc'
      rcases List.mem_cons.mp hc' with rfl | hc'
      · have h2 := hr.2
        simp only [Bool.not_eq_true'] at h2
        exact h2
      · exact hall c' hc'

/-- The deletion loop leaves rows of communities it never visits alone. -/
theorem limitLoop_filter_of_not_mem {sl : List LanguageId} {cs : List Community}
    {cid : CommunityId} (h : ∀ c ∈ cs, c.id ≠ cid)
    (rows : List (CommunityId × LanguageId)) :
    (CommunityLanguage.limitLoop sl cs rows).filter (fun r => r.1 == cid)
      = rows.filter (fun r => r.1 == cid) := by
  induction cs generalizing rows with
  | nil => rfl
  | cons c rest ih =>
      simp only [CommunityLanguage.limitLoop]
      rw [ih (fun c' hc' => h c' (List.mem_cons_of_mem _ hc'))]
      rw [List.filter_filter]
      apply List.filter_congr
      intro a _
      cases hq : (a.1 == cid) with
      | false => simp [hq]
      | true =>
          have ha : a.1 = cid := by simpa using hq
          have hc : (a.1 == c.id) = false := by
            simp [ha]
            exact fun hder => (h c (List.mem_cons_self c rest)) hder.symm
          simp [hq, hc]

/-- **C8**: `LocalUserLanguage::update` fully replaces the user's language
rows: a subsequent `read` returns exactly the given duplicate-free list
when it is non-empty, and all known languages (`Language::read_all`) when
it is empty; likewise for `SiteLanguage::update` and
`CommunityLanguage::update`. -/
theorem c8_update_replaces_languages (st : DbState) (L : List LanguageId)
    (u : LocalUserId) (s : SiteId) (c : CommunityId) (hnd : L.Nodup) :
    LocalUserLanguage.read (LocalUserLanguage.update st L u) u
        = (if L.isEmpty then Language.read_all st else L)
      ∧ SiteLanguage.read (SiteLanguage.update st L s) s
        = (if L.isEmpty then Language.read_all st else L)
      ∧ CommunityLanguage.read (CommunityLanguage.update st L c) c
        = (if L.isEmpty then Language.read_all st else L) := by
  refine ⟨?_, ?_, ?_⟩
  · simp only [LocalUserLanguage.read, LocalUserLanguage.update,
      update_languages, Language.read_all]
    exact read_replace _ _ _
  · simp only [SiteLanguage.read, SiteLanguage.update,
      CommunityLanguage.limit_languages, update_languages, Language.read_all]
    exact read_replace _ _ _
  · simp only [CommunityLanguage.read, CommunityLanguage.update,
      update_languages, Language.read_all]
    exact read_replace _ _ _

/-- Witness for C8 at a concrete database state. -/
theorem c8_update_replaces_languages_witness :
    ([⟨2⟩] : List LanguageId).Nodup
      ∧ (LocalUserLanguage.read
          (LocalUserLanguage.update
            ⟨[⟨1⟩, ⟨2⟩], [(⟨5⟩, ⟨1⟩)], [], [], []⟩ [⟨2⟩] ⟨5⟩) ⟨5⟩
          = (if ([⟨2⟩] : List LanguageId).isEmpty
              then Language.read_all ⟨[⟨1⟩, ⟨2⟩], [(⟨5⟩, ⟨1⟩)], [], [], []⟩
              else [⟨2⟩])
        ∧ SiteLanguage.read
            (SiteLanguage.update
              ⟨[⟨1⟩, ⟨2⟩], [(⟨5⟩, ⟨1⟩)], [], [], []⟩ [⟨2⟩] ⟨1⟩) ⟨1⟩
            = (if ([⟨2⟩] : List LanguageId).isEmpty
                then Language.read_all ⟨[⟨1⟩, ⟨2⟩], [(⟨5⟩, ⟨1⟩)], [], [], []⟩
                else [⟨2⟩])
        ∧ CommunityLanguage.read
            (CommunityLanguage.update
              ⟨[⟨1⟩, ⟨2⟩], [(⟨5⟩, ⟨1⟩)], [], [], []⟩ [⟨2⟩] ⟨3⟩) ⟨3⟩
            = (if ([⟨2⟩] : List LanguageId).isEmpty
                then Language.read_all ⟨[⟨1⟩, ⟨2⟩], [(⟨5⟩, ⟨1⟩)], [], [], []⟩
                else [⟨2⟩])) :=
  ⟨by decide,
   c8_update_replaces_languages ⟨[⟨1⟩, ⟨2⟩], [(⟨5⟩, ⟨1⟩)], [], [], []⟩
     [⟨2⟩] ⟨5⟩ ⟨1⟩ ⟨3⟩ (by decide)⟩

/-- **C9**: after `SiteLanguage::update`, every local community's language
set is contained in the new site language set (`update_languages` of the
given list), while non-local communities' `community_language` rows are
unchanged. -/
theorem c9_site_update_limits_local_communities (st : DbState)
    (L : List LanguageId) (s : SiteId) :
    (∀ c ∈ st.communities, c.isLocal = true →
       ∀ lid ∈ CommunityLanguage.read (SiteLanguage.update st L s) c.id,
         lid ∈ update_languages st L)
    ∧ (∀ cid : CommunityId,
        (∀ c ∈ st.communities, c.id = cid → c.isLocal = false) →
        CommunityLanguage.read (SiteLanguage.update st L s) cid
          = CommunityLanguage.read st cid) := by
  constructor
  · intro c hc hlocal lid hlid
    simp only [CommunityLanguage.read, SiteLanguage.update,
      CommunityLanguage.limit_languages, List.mem_map] at hlid
    obtain ⟨r, hr, hr2⟩ := hlid
    rw [List.mem_filter] at hr
    obtain ⟨hmem, hkey⟩ := hr
    obtain ⟨-, hall⟩ := mem_limitLoop hmem
    have hcmem : c ∈ st.communities.filter (fun c => c.isLocal) := by
      rw [List.mem_filter]
      exact ⟨hc, by simp [hlocal]⟩
    have hfalse := hall c hcmem
    rw [hkey] at hfalse
    simp only [Bool.true_and, Bool.not_eq_false'] at hfalse
    have hmem2 : r.2 ∈ update_languages st L := by
      simp only [update_languages, Language.read_all]
      simpa [update_languages, Language.read_all] using hfalse
    subst hr2
    exact hmem2
  · intro cid hnl
    simp only [CommunityLanguage.read, SiteLanguage.update,
      CommunityLanguage.limit_languages]
    rw [limitLoop_filter_of_not_mem]
    intro c hc
    rw [List.mem_filter] at hc
    intro heq
    have := hnl c hc.1 heq
    rw [this] at hc
    simpa using hc.2

/-- Witness for C9 at a concrete database state with one local and one
non-local community. -/
theorem c9_site_update_limits_local_communities_witness :
    ((⟨2⟩ : LanguageId) ∈ update_languages
        ⟨[⟨1⟩, ⟨2⟩], [], [(⟨1⟩, ⟨1⟩)],
          [(⟨1⟩, ⟨1⟩), (⟨1⟩, ⟨2⟩), (⟨2⟩, ⟨1⟩)],
          [⟨⟨1⟩, true⟩, ⟨⟨2⟩, false⟩]⟩ [⟨2⟩])
      ∧ CommunityLanguage.read
          (SiteLanguage.update
            ⟨[⟨1⟩, ⟨2⟩], [], [(⟨1⟩, ⟨1⟩)],
              [(⟨1⟩, ⟨1⟩), (⟨1⟩, ⟨2⟩), (⟨2⟩, ⟨1⟩)],
              [⟨⟨1⟩, true⟩, ⟨⟨2⟩, false⟩]⟩ [⟨2⟩] ⟨1⟩) ⟨2⟩
        = CommunityLanguage.read
            ⟨[⟨1⟩, ⟨2⟩], [], [(⟨1⟩, ⟨1⟩)],
              [(⟨1⟩, ⟨1⟩), (⟨1⟩, ⟨2⟩), (⟨2⟩, ⟨1⟩)],
              [⟨⟨1⟩, true⟩, ⟨⟨2⟩, false⟩]⟩ ⟨2⟩ :=
  ⟨(c9_site_update_limits_local_communities
      ⟨[⟨1⟩, ⟨2⟩], [], [(⟨1⟩, ⟨1⟩)],
        [(⟨1⟩, ⟨1⟩), (⟨1⟩, ⟨2⟩), (⟨2⟩, ⟨1⟩)],
        [⟨⟨1⟩, true⟩, ⟨⟨2⟩, false⟩]⟩ [⟨2⟩] ⟨1⟩).1
      ⟨⟨1⟩, true⟩ (by decide) (by decide) ⟨2⟩ (by decide),
   (c9_site_update_limits_local_communities
      ⟨[⟨1⟩, ⟨2⟩], [], [(⟨1⟩, ⟨1⟩)],
        [(⟨1⟩, ⟨1⟩), (⟨1⟩, ⟨2⟩), (⟨2⟩, ⟨1⟩)],
        [⟨⟨1⟩, true⟩, ⟨⟨2⟩, false⟩]⟩ [⟨2⟩] ⟨1⟩).2
      ⟨2⟩ (by decide)⟩

/-! ### Federation theorems -/

/-- **C5**: `Instance::new(hostname)` is total — for every hostname it
returns the `Instance` built from `LocalInstance::new` with the default
client and default settings and empty user/post stores; there is no
error case (the Rust signature returns `Instance`, not `Result`). -/
theorem c5_instance_new_total (hostname : String) :
    Instance.new hostname
      = { local_instance :=
            LocalInstance.new hostname Client.default InstanceSettings.default
          users := []
          posts := [] }
      ∧ (Instance.new hostname).local_instance.hostname = hostname :=
  ⟨rfl, rfl⟩

/-- **C10**: on an `Instance` whose users contain no local user — in
particular a fresh `Instance::new`, whose users vector is empty —
`Instance::get_user` hits the `unwrap` of a failed `find`: the embedded
`find?` returns `none`, which is exactly the Rust panic, not an error
return. -/
theorem c10_get_user_panics_without_local_user (i : Instance)
    (hostname : String) (h : ∀ u ∈ i.users, u.isLocal = false) :
    i.get_user = none ∧ (Instance.new hostname).get_user = none := by
  constructor
  · rw [Instance.get_user, List.find?_eq_none]
    intro u hu
    simp [h u hu]
  · rfl

/-- Witness for C10: a concrete instance holding only a remote user. -/
theorem c10_get_user_panics_without_local_user_witness :
    (∀ u ∈ [(⟨"https://b.com/u/bob", "bob", "k2", false⟩ : MyUser)],
        u.isLocal = false)
      ∧ Instance.get_user
          ⟨LocalInstance.new "a.com" Client.default InstanceSettings.default,
            [⟨"https://b.com/u/bob", "bob", "k2", false⟩], []⟩ = none
      ∧ (Instance.new "a.com").get_user = none :=
  ⟨by decide,
    (c10_get_user_panics_without_local_user
      ⟨LocalInstance.new "a.com" Client.default InstanceSettings.default,
        [⟨"https://b.com/u/bob", "bob", "k2", false⟩], []⟩
      "a.com" (by decide)).1,
    (c10_get_user_panics_without_local_user
      ⟨LocalInstance.new "a.com" Client.default InstanceSettings.default,
        [⟨"https://b.com/u/bob", "bob", "k2", false⟩], []⟩
      "a.com" (by decide)).2⟩

/-- **C3**: resolution of a reference whose authority is the local
hostname performs no network I/O (the fetch trace is empty), and the
local-only variant `dereference_local` — the one the `GET /objects`
handler uses — fails with `notLocal` instead of issuing a request when
the reference is remote. -/
theorem c3_local_resolution_no_network (oid : ObjectId)
    (inst : LocalInstance) (st : Storage) (net : Net) :
    (oid.url.authority = inst.hostname →
      (ObjectId.dereference oid inst st net).2.2 = [])
    ∧ (oid.url.authority ≠ inst.hostname →
      ObjectId.dereference_local oid inst st
        = Except.error LemmyError.notLocal) := by
  constructor
  · intro h
    have hb : (oid.url.authority == inst.hostname) = true := by simp [h]
    rw [ObjectId.dereference, if_pos hb]
    cases find_by_url st oid.url.toStr <;> rfl
  · intro h
    have hb : (oid.url.authority == inst.hostname) = false := by simp [h]
    rw [ObjectId.dereference_local, if_neg (by simp [hb])]

/-- Witness for C3: a local reference resolved with no fetches, and a
remote reference rejected by the local-only variant. -/
theorem c3_local_resolution_no_network_witness :
    (ObjectId.dereference ⟨⟨"https", "a.com", "/u/alice"⟩⟩
        (LocalInstance.new "a.com" Client.default InstanceSettings.default)
        ⟨[], [], [], []⟩ (fun _ => none)).2.2 = []
      ∧ ObjectId.dereference_local ⟨⟨"https", "b.com", "/u/bob"⟩⟩
          (LocalInstance.new "a.com" Client.default InstanceSettings.default)
          ⟨[], [], [], []⟩ = Except.error LemmyError.notLocal :=
  ⟨(c3_local_resolution_no_network ⟨⟨"https", "a.com", "/u/alice"⟩⟩
      (LocalInstance.new "a.com" Client.default InstanceSettings.default)
      ⟨[], [], [], []⟩ (fun _ => none)).1 (by decide),
   (c3_local_resolution_no_network ⟨⟨"https", "b.com", "/u/bob"⟩⟩
      (LocalInstance.new "a.com" Client.default InstanceSettings.default)
      ⟨[], [], [], []⟩ (fun _ => none)).2 (by decide)⟩

/-- **C4**: the wire codec round-trips — decoding the encoding of any
entity succeeds and agrees with the entity on every codec-covered field
(`apub_id`, `username`, `public_key`; the `local` flag is derived, not
carried on the wire). -/
theorem c4_codec_round_trip (e : MyUser) (ctx : Unit) :
    ∃ u : MyUser,
      MyUser.from_apub (e.into_apub ctx) ctx = Except.ok u
        ∧ u.apub_id = e.apub_id
        ∧ u.username = e.username
        ∧ u.public_key = e.public_key :=
  ⟨⟨e.apub_id, e.username, e.public_key, false⟩, rfl, rfl, rfl, rfl⟩

/-- **C2**: an inbox POST whose `Digest` header does not match the body
digest is rejected by the `VerifyDigest` wrap with the storage untouched,
whatever handler is wrapped — and in particular the composed inbox route
of `Instance::listen` rejects it the same way.  The handler is never
executed: the outcome does not depend on it. -/
theorem c2_digest_gate
    (handler : Request → Storage → Except LemmyError Nat × Storage × List Url)
    (req : Request) (st : Storage) (inst : LocalInstance) (net : Net)
    (d : Nat) (hd : req.digest = some d)
    (hne : d ≠ body_digest req.body) :
    verify_digest handler req st
        = (Except.error LemmyError.digestMismatch, st, [])
      ∧ inbox_route req inst st net
        = (Except.error LemmyError.digestMismatch, st, []) := by
  have hb : (d == body_digest req.body) = false := by simp [hne]
  constructor
  · rw [verify_digest, hd]
    simp [hb]
  · rw [inbox_route, verify_digest, hd]
    simp [hb]

/-- Witness for C2 at a concrete tampered request. -/
theorem c2_digest_gate_witness :
    verify_digest (fun _ s => (Except.ok 200, s, []))
        ⟨"POST", "/u/alice/inbox", some 0, none, false, "x"⟩ ⟨[], [], [], []⟩
        = (Except.error LemmyError.digestMismatch, ⟨[], [], [], []⟩, [])
      ∧ inbox_route ⟨"POST", "/u/alice/inbox", some 0, none, false, "x"⟩
          (LocalInstance.new "a.com" Client.default InstanceSettings.default)
          ⟨[], [], [], []⟩ (fun _ => none)
        = (Except.error LemmyError.digestMismatch, ⟨[], [], [], []⟩, []) :=
  ⟨(c2_digest_gate (fun _ s => (Except.ok 200, s, []))
      ⟨"POST", "/u/alice/inbox", some 0, none, false, "x"⟩ ⟨[], [], [], []⟩
      (LocalInstance.new "a.com" Client.default InstanceSettings.default)
      (fun _ => none) 0 rfl (by decide)).1,
   (c2_digest_gate (fun _ s => (Except.ok 200, s, []))
      ⟨"POST", "/u/alice/inbox", some 0, none, false, "x"⟩ ⟨[], [], [], []⟩
      (LocalInstance.new "a.com" Client.default InstanceSettings.default)
      (fun _ => none) 0 rfl (by decide)).2⟩

/-- **C6**: every successful `GET /objects/{id}` response carries the
`APUB_JSON_CONTENT_TYPE` content type and, as its body, the wire
document of the locally dereferenced entity wrapped by
`WithContext::new_default`. -/
theorem c6_get_user_response (uri : String) (inst : LocalInstance)
    (st : Storage) (resp : HttpResponse (WithContext PersonWire))
    (h : get_user uri inst st = Except.ok resp) :
    resp.status = 200
      ∧ resp.content_type = APUB_JSON_CONTENT_TYPE
      ∧ ∃ url user,
          Url.parse uri = some url
            ∧ ObjectId.dereference_local (ObjectId.new url) inst st
                = Except.ok user
            ∧ resp.body = WithContext.new_default (user.into_apub ()) := by
  rw [get_user] at h
  split at h
  · exact absurd h (by simp)
  · rename_i url hp
    split at h
    · exact absurd h (by simp)
    · rename_i user hd
      have hr := Except.ok.inj h
      subst hr
      exact ⟨rfl, rfl, url, user, hp, hd, rfl⟩

/-- Witness for C6: the local user `alice` fetched at her own URL. -/
theorem c6_get_user_response_witness :
    (⟨200, APUB_JSON_CONTENT_TYPE,
        WithContext.new_default
          (MyUser.into_apub ⟨"https://a.com/u/alice", "alice", "k1", true⟩ ())⟩ :
      HttpResponse (WithContext PersonWire)).status = 200
      ∧ (⟨200, APUB_JSON_CONTENT_TYPE,
          WithContext.new_default
            (MyUser.into_apub ⟨"https://a.com/u/alice", "alice", "k1", true⟩ ())⟩ :
        HttpResponse (WithContext PersonWire)).content_type
          = APUB_JSON_CONTENT_TYPE
      ∧ ∃ url user,
          Url.parse "https://a.com/u/alice" = some url
            ∧ ObjectId.dereference_local (ObjectId.new url)
                (LocalInstance.new "a.com" Client.default
                  InstanceSettings.default)
                ⟨[⟨"https://a.com/u/alice", "alice", "k1", true⟩], [], [], []⟩
                = Except.ok user
            ∧ (⟨200, APUB_JSON_CONTENT_TYPE,
                WithContext.new_default
                  (MyUser.into_apub
                    ⟨"https://a.com/u/alice", "alice", "k1", true⟩ ())⟩ :
              HttpResponse (WithContext PersonWire)).body
                = WithContext.new_default (user.into_apub ()) :=
  c6_get_user_response "https://a.com/u/alice"
    (LocalInstance.new "a.com" Client.default InstanceSettings.default)
    ⟨[⟨"https://a.com/u/alice", "alice", "k1", true⟩], [], [], []⟩
    ⟨200, APUB_JSON_CONTENT_TYPE,
      WithContext.new_default
        (MyUser.into_apub ⟨"https://a.com/u/alice", "alice", "k1", true⟩ ())⟩
    (by decide)

/-- **C7**: the inbound inbox endpoint registered by `Instance::listen`
is `POST /u/{user_name}/inbox`; a body that does not deserialize to an
accepted activity envelope makes `post_inbox` return the parse error
with storage untouched and no handler invoked, while a deserializable
body is handed to the `receive_activity` pipeline, whose status is
returned as-is. -/
theorem c7_inbox_endpoint :
    ("POST", "/u/{user_name}/inbox") ∈ listen_routes
      ∧ (∀ (req : Request) (inst : LocalInstance) (st : Storage) (net : Net),
          parse_activity req.body = none →
          post_inbox req inst st net
            = (Except.error LemmyError.parseError, st, []))
      ∧ (∀ (req : Request) (env : Envelope) (inst : LocalInstance)
            (st : Storage) (net : Net),
          parse_activity req.body = some env →
          post_inbox req inst st net = receive_activity req env inst st net) := by
  refine ⟨by simp [listen_routes], ?_, ?_⟩
  · intro req inst st net h
    rw [post_inbox, h]
  · intro req env inst st net h
    rw [post_inbox, h]

/-- Witness for C7: a malformed body is rejected, a well-formed one is
piped to `receive_activity`. -/
theorem c7_inbox_endpoint_witness :
    post_inbox ⟨"POST", "/u/alice/inbox", some 0, none, false, "not json"⟩
        (LocalInstance.new "a.com" Client.default InstanceSettings.default)
        ⟨[], [], [], []⟩ (fun _ => none)
      = (Except.error LemmyError.parseError, ⟨[], [], [], []⟩, [])
      ∧ post_inbox
          ⟨"POST", "/u/alice/inbox", some 0, none, false,
            "Create|https://a.com/x|https://a.com/u/alice|https://a.com/p/1"⟩
          (LocalInstance.new "a.com" Client.default InstanceSettings.default)
          ⟨[], [], [], []⟩ (fun _ => none)
        = receive_activity
            ⟨"POST", "/u/alice/inbox", some 0, none, false,
              "Create|https://a.com/x|https://a.com/u/alice|https://a.com/p/1"⟩
            ⟨"https://a.com/x", "https://a.com/u/alice", ActivityKind.create,
              "https://a.com/p/1"⟩
            (LocalInstance.new "a.com" Client.default InstanceSettings.default)
            ⟨[], [], [], []⟩ (fun _ => none) :=
  ⟨c7_inbox_endpoint.2.1
      ⟨"POST", "/u/alice/inbox", some 0, none, false, "not json"⟩
      (LocalInstance.new "a.com" Client.default InstanceSettings.default)
      ⟨[], [], [], []⟩ (fun _ => none) (by decide),
   c7_inbox_endpoint.2.2
      ⟨"POST", "/u/alice/inbox", some 0, none, false,
        "Create|https://a.com/x|https://a.com/u/alice|https://a.com/p/1"⟩
      ⟨"https://a.com/x", "https://a.com/u/alice", ActivityKind.create,
        "https://a.com/p/1"⟩
      (LocalInstance.new "a.com" Client.default InstanceSettings.default)
      ⟨[], [], [], []⟩ (fun _ => none) (by decide)⟩

/-! ### Lemmas towards C1 (idempotent redelivery) -/

/-- A rejected and an accepted pipeline outcome never coincide. -/
theorem err_ne_ok {α : Type} {e : LemmyError} {n : α} {s s' : Storage}
    {tr tr' : List Url} :
    ((Except.error e, s, tr) : Except LemmyError α × Storage × List Url)
      ≠ (Except.ok n, s', tr') := by
  intro h
  injection h with h1 _
  exact Except.noConfusion h1

/-- Resolution never touches the processed-ids record. -/
theorem dereference_processed (oid : ObjectId) (inst : LocalInstance)
    (st : Storage) (net : Net) :
    ((ObjectId.dereference oid inst st net).2.1).processed = st.processed := by
  rw [ObjectId.dereference]
  split
  · split <;> rfl
  · split
    · rfl
    · split
      · rfl
      · split <;> rfl

/-- `resolvable` only looks at the user store and the cache. -/
theorem resolvable_congr (oid : ObjectId) (inst : LocalInstance)
    {st st' : Storage} (hu : st'.users = st.users) (hc : st'.cache = st.cache)
    (h : resolvable oid inst st) : resolvable oid inst st' := by
  rw [resolvable, find_by_url, hu, hc]
  rw [resolvable, find_by_url] at h
  exact h

/-- An upsert never removes a reference's target. -/
theorem resolvable_upsert (oid : ObjectId) (inst : LocalInstance)
    (st : Storage) (u : MyUser) (h : resolvable oid inst st) :
    resolvable oid inst (upsert st u) := by
  by_cases hb : (oid.url.authority == inst.hostname) = true
  · rw [resolvable, if_pos hb] at h ⊢
    rw [find_by_url] at h ⊢
    rw [List.find?_isSome] at h ⊢
    obtain ⟨v, hv, hpv⟩ := h
    by_cases he : (u.apub_id == oid.url.toStr) = true
    · exact ⟨u, by simp [upsert], he⟩
    · refine ⟨v, List.mem_cons_of_mem _ ?_, hpv⟩
      rw [List.mem_filter]
      refine ⟨hv, ?_⟩
      have h1 : v.apub_id = oid.url.toStr := by simpa using hpv
      have h2 : ¬ u.apub_id = oid.url.toStr := by simpa using he
      simp [h1]
      exact fun hh => h2 hh.symm
  · rw [resolvable, if_neg hb] at h ⊢
    exact h

/-- A cache insertion never removes a reference's target. -/
theorem resolvable_cache_put (oid : ObjectId) (inst : LocalInstance)
    (st : Storage) (k : String) (u : MyUser) (h : resolvable oid inst st) :
    resolvable oid inst (cache_put st k u) := by
  by_cases hb : (oid.url.authority == inst.hostname) = true
  · rw [resolvable, if_pos hb] at h ⊢
    exact h
  · rw [resolvable, if_neg hb] at h ⊢
    rw [List.find?_isSome] at h ⊢
    obtain ⟨q, hq, hpq⟩ := h
    by_cases he : (k == oid.url.toStr) = true
    · exact ⟨(k, u), by simp [cache_put], he⟩
    · refine ⟨q, List.mem_cons_of_mem _ ?_, hpq⟩
      rw [List.mem_filter]
      refine ⟨hq, ?_⟩
      have h1 : q.1 = oid.url.toStr := by simpa using hpq
      have h2 : ¬ k = oid.url.toStr := by simpa using he
      simp [h1]
      exact fun hh => h2 hh.symm

/-- Resolving any reference preserves resolvability of every other
reference. -/
theorem resolvable_dereference (oid oidB : ObjectId) (inst : LocalInstance)
    (st : Storage) (net : Net) (h : resolvable oid inst st) :
    resolvable oid inst ((ObjectId.dereference oidB inst st net).2.1) := by
  rw [ObjectId.dereference]
  split
  · split
    · exact h
    · exact h
  · split
    · exact h
    · split
      · exact h
      · split
        · exact h
        · exact resolvable_cache_put _ _ _ _ _ (resolvable_upsert _ _ _ _ h)

/-- A successful resolution leaves the reference resolvable against the
resulting storage. -/
theorem dereference_ok_resolvable {oid : ObjectId} {inst : LocalInstance}
    {st : Storage} {net : Net} {u : MyUser} {st' : Storage} {tr : List Url}
    (h : ObjectId.dereference oid inst st net = (Except.ok u, st', tr)) :
    resolvable oid inst st' := by
  rw [ObjectId.dereference] at h
  split at h
  · rename_i hb
    split at h
    · rename_i v hf
      injection h with h1 h23
      injection h23 with h2 h3
      subst h2
      rw [resolvable, if_pos hb, hf]
      rfl
    · exact absurd h err_ne_ok
  · rename_i hb
    split at h
    · rename_i p hp
      injection h with h1 h23
      injection h23 with h2 h3
      subst h2
      rw [resolvable, if_neg hb, hp]
      rfl
    · rename_i hp
      split at h
      · exact absurd h err_ne_ok
      · rename_i doc hnet
        split at h
        · exact absurd h err_ne_ok
        · rename_i entity hconv
          injection h with h1 h23
          injection h23 with h2 h3
          subst h2
          rw [resolvable, if_neg hb]
          rw [List.find?_isSome]
          exact ⟨(oid.url.toStr, entity), by simp [cache_put], by simp⟩

/-- A resolvable reference resolves successfully with no storage change
and no network I/O. -/
theorem resolvable_dereference_noop {oid : ObjectId} {inst : LocalInstance}
    {st : Storage} (net : Net) (h : resolvable oid inst st) :
    ∃ u, ObjectId.dereference oid inst st net = (Except.ok u, st, []) := by
  by_cases hb : (oid.url.authority == inst.hostname) = true
  · rw [resolvable, if_pos hb] at h
    rw [Option.isSome_iff_exists] at h
    obtain ⟨u, hu⟩ := h
    refine ⟨u, ?_⟩
    rw [ObjectId.dereference, if_pos hb, hu]
  · rw [resolvable, if_neg hb] at h
    rw [Option.isSome_iff_exists] at h
    obtain ⟨p, hp⟩ := h
    refine ⟨p.2, ?_⟩
    rw [ObjectId.dereference, if_neg hb, hp]

/-- The dispatcher only ever appends posts: users, cache and the
processed-ids record pass through unchanged. -/
theorem activity_handler_fields (env : Envelope) (a : MyUser)
    (st : Storage) :
    (activity_handler env a st).users = st.users
      ∧ (activity_handler env a st).cache = st.cache
      ∧ (activity_handler env a st).processed = st.processed := by
  rw [activity_handler]
  split <;> exact ⟨rfl, rfl, rfl⟩

/-- A successful signature verification decomposes into its stages:
a present signature header, a parsable key id, a passing cryptographic
check, and a successful key resolution that accounts for the entire
state change and fetch trace. -/
theorem verify_ok_structure {req : Request} {inst : LocalInstance}
    {st : Storage} {net : Net} {a : MyUser} {stv : Storage} {trv : List Url}
    (h : verify req inst st net = (Except.ok a, stv, trv)) :
    ∃ key_id kurl, req.signature = some key_id
      ∧ Url.parse key_id = some kurl
      ∧ req.sig_valid = true
      ∧ ObjectId.dereference (ObjectId.new kurl) inst st net
          = (Except.ok a, stv, trv) := by
  rw [verify] at h
  split at h
  · exact absurd h err_ne_ok
  · rename_i key_id hsig
    split at h
    · exact absurd h err_ne_ok
    · rename_i kurl hparse
      split at h
      · exact absurd h err_ne_ok
      · rename_i actor st1 tr hder
        split at h
        · rename_i hsv
          injection h with h1 h23
          injection h23 with h2 h3
          have ha : actor = a := Except.ok.inj h1
          subst ha h2 h3
          exact ⟨key_id, kurl, hsig, hparse, hsv, hder⟩
        · exact absurd h err_ne_ok

/-- Against a storage where the signing key is already resolvable,
verification succeeds without mutating storage or fetching. -/
theorem verify_resolvable_noop {req : Request} {inst : LocalInstance}
    {key_id : String} {kurl : Url} (net : Net) (st : Storage)
    (hsig : req.signature = some key_id)
    (hparse : Url.parse key_id = some kurl)
    (hsv : req.sig_valid = true)
    (hres : resolvable (ObjectId.new kurl) inst st) :
    ∃ a, verify req inst st net = (Except.ok a, st, []) := by
  obtain ⟨u, hu⟩ := resolvable_dereference_noop net hres
  refine ⟨u, ?_⟩
  simp only [verify, hsig, hparse, hu, hsv, if_true]

/-- **C1**: delivering the same envelope twice through the inbox route
(`VerifyDigest` wrap around `post_inbox` and `receive_activity`) applies
its side effects exactly once: if the first delivery of an envelope with
a fresh id succeeds and produces storage `st1`, redelivering the very
same request terminates successfully as a no-op — the pipeline answers
`200`, leaves `st1` untouched, and fetches nothing. -/
theorem c1_inbox_idempotent
    (req : Request) (env : Envelope) (inst : LocalInstance) (st : Storage)
    (net : Net) (r1 : Nat) (st1 : Storage) (t1 : List Url)
    (hp : parse_activity req.body = some env)
    (hfresh : st.processed.contains env.id = false)
    (h1 : inbox_route req inst st net = (Except.ok r1, st1, t1)) :
    inbox_route req inst st1 net = (Except.ok 200, st1, []) := by
  rw [inbox_route, verify_digest] at h1
  split at h1
  · exact absurd h1 err_ne_ok
  · rename_i d hdg
    split at h1
    · rename_i hbd
      rw [post_inbox] at h1
      simp only [hp] at h1
      rw [receive_activity] at h1
      split at h1
      · exact absurd h1 err_ne_ok
      · rename_i key_actor stv trv hv
        obtain ⟨kid, kurl, hsig, hparse, hsv, hder⟩ := verify_ok_structure hv
        have hpv : stv.processed = st.processed := by
          have h := dereference_processed (ObjectId.new kurl) inst st net
          rw [hder] at h
          exact h
        split at h1
        · rename_i st2 hmark
          rw [mark_processed] at hmark
          split at hmark
          · rename_i hcontains
            rw [hpv, hfresh] at hcontains
            exact absurd hcontains (by simp)
          · exact absurd hmark (by simp)
        · rename_i st2 hmark
          have hst2 : st2 = { stv with processed := stv.processed ++ [env.id] } := by
            rw [mark_processed] at hmark
            split at hmark
            · exact absurd hmark (by simp)
            · injection hmark with h1 h2
              exact h2.symm
          split at h1
          · exact absurd h1 err_ne_ok
          · rename_i aurl hpa
            split at h1
            · exact absurd h1 err_ne_ok
            · rename_i actor st3 tr2 hda
              injection h1 with hA hBC
              injection hBC with hB hC
              have hres_v : resolvable (ObjectId.new kurl) inst stv :=
                dereference_ok_resolvable hder
              have hres_2 : resolvable (ObjectId.new kurl) inst st2 :=
                resolvable_congr _ _ (by rw [hst2]) (by rw [hst2]) hres_v
              have hres_3 : resolvable (ObjectId.new kurl) inst st3 := by
                have h := resolvable_dereference (ObjectId.new kurl)
                  (ObjectId.new aurl) inst st2 net hres_2
                rw [hda] at h
                exact h
              have hres_1 : resolvable (ObjectId.new kurl) inst st1 := by
                refine resolvable_congr _ _ ?_ ?_ hres_3
                · rw [← hB]
                  exact (activity_handler_fields env actor st3).1
                · rw [← hB]
                  exact (activity_handler_fields env actor st3).2.1
              have hproc1 : st1.processed = stv.processed ++ [env.id] := by
                rw [← hB]
                rw [(activity_handler_fields env actor st3).2.2]
                have h3 := dereference_processed (ObjectId.new aurl) inst st2 net
                rw [hda] at h3
                rw [h3, hst2]
              obtain ⟨a2, hv2⟩ :=
                verify_resolvable_noop net st1 hsig hparse hsv hres_1
              have hm2 : mark_processed st1 env.id = (false, st1) := by
                rw [mark_processed, if_pos]
                rw [hproc1]
                simp
              simp only [inbox_route, verify_digest, hdg, hbd, if_true,
                post_inbox, hp, receive_activity, hv2, hm2]
    · exact absurd h1 err_ne_ok

/-- Witness for C1: a signed `Create` delivered twice by the local user
`alice`; the first delivery persists one post and marks the id, the
second is a successful no-op. -/
theorem c1_inbox_idempotent_witness :
    parse_activity
        "Create|https://a.com/x|https://a.com/u/alice|https://a.com/p/1"
      = some ⟨"https://a.com/x", "https://a.com/u/alice",
          ActivityKind.create, "https://a.com/p/1"⟩
      ∧ (Storage.processed ⟨[⟨"https://a.com/u/alice", "alice", "k1", true⟩],
            [], [], []⟩).contains "https://a.com/x" = false
      ∧ inbox_route
          ⟨"POST", "/u/alice/inbox",
            some (body_digest
              "Create|https://a.com/x|https://a.com/u/alice|https://a.com/p/1"),
            some "https://a.com/u/alice", true,
            "Create|https://a.com/x|https://a.com/u/alice|https://a.com/p/1"⟩
          (LocalInstance.new "a.com" Client.default InstanceSettings.default)
          ⟨[⟨"https://a.com/u/alice", "alice", "k1", true⟩], [], [], []⟩
          (fun _ => none)
        = (Except.ok 200,
            ⟨[⟨"https://a.com/u/alice", "alice", "k1", true⟩],
              [⟨"https://a.com/p/1", "https://a.com/u/alice"⟩], [],
              ["https://a.com/x"]⟩, [])
      ∧ inbox_route
          ⟨"POST", "/u/alice/inbox",
            some (body_digest
              "Create|https://a.com/x|https://a.com/u/alice|https://a.com/p/1"),
            some "https://a.com/u/alice", true,
            "Create|https://a.com/x|https://a.com/u/alice|https://a.com/p/1"⟩
          (LocalInstance.new "a.com" Client.default InstanceSettings.default)
          ⟨[⟨"https://a.com/u/alice", "alice", "k1", true⟩],
            [⟨"https://a.com/p/1", "https://a.com/u/alice"⟩], [],
            ["https://a.com/x"]⟩
          (fun _ => none)
        = (Except.ok 200,
            ⟨[⟨"https://a.com/u/alice", "alice", "k1", true⟩],
              [⟨"https://a.com/p/1", "https://a.com/u/alice"⟩], [],
              ["https://a.com/x"]⟩, []) :=
  ⟨by decide, by decide, by decide,
    c1_inbox_idempotent
      ⟨"POST", "/u/alice/inbox",
        some (body_digest
          "Create|https://a.com/x|https://a.com/u/alice|https://a.com/p/1"),
        some "https://a.com/u/alice", true,
        "Create|https://a.com/x|https://a.com/u/alice|https://a.com/p/1"⟩
      ⟨"https://a.com/x", "https://a.com/u/alice", ActivityKind.create,
        "https://a.com/p/1"⟩
      (LocalInstance.new "a.com" Client.default InstanceSettings.default)
      ⟨[⟨"https://a.com/u/alice", "alice", "k1", true⟩], [], [], []⟩
      (fun _ => none) 200
      ⟨[⟨"https://a.com/u/alice", "alice", "k1", true⟩],
        [⟨"https://a.com/p/1", "https://a.com/u/alice"⟩], [],
        ["https://a.com/x"]⟩
      [] (by decide) (by decide) (by decide)⟩

end Lemmy
